import Mathlib

/-!
# Verification of the wiro-ai-sdk client library

A shallow embedding, in Lean 4, of the wiro-ai-sdk TypeScript client:

* the request signer `generateAuthHeaders` (`src/auth.ts`, and the stricter
  bundled variant that enforces a minimum credential length),
* the `WiroClient` constructor and its four operations
  (`run`, `getTaskDetail`, `killTask`, `cancelTask`),
* the polling helper `waitForTaskCompletion` (`examples/shared/helpers.ts`).

Machine integers are modelled as `Nat` with explicit reduction modulo `2^32`
where the SHA-256 compression function overflows; byte strings are
`List Nat` with entries below 256; JavaScript `undefined` is `Option.none`;
thrown exceptions are `Except.error` carrying the thrown message.
The HMAC-SHA256 primitive that the source obtains from `crypto.createHmac`
is implemented concretely (FIPS 180-4 / RFC 2104) and validated below
against standard test vectors, so that the signer is fully executable.
-/

set_option maxRecDepth 100000

namespace Wiro

/-! ## Bytes and 32-bit words -/

/-- Modulus for 32-bit words. -/
def M32 : Nat := 4294967296

/-- Rotate a 32-bit word right by `n` bits. -/
def rotr (n x : Nat) : Nat := ((x >>> n) ||| (x <<< (32 - n))) % M32

/-- SHA-256 choice function. -/
def ch (x y z : Nat) : Nat := (x &&& y) ^^^ ((x ^^^ 4294967295) &&& z)

/-- SHA-256 majority function. -/
def maj (x y z : Nat) : Nat := (x &&& y) ^^^ (x &&& z) ^^^ (y &&& z)

/-- SHA-256 Σ0. -/
def bigSigma0 (x : Nat) : Nat := rotr 2 x ^^^ rotr 13 x ^^^ rotr 22 x

/-- SHA-256 Σ1. -/
def bigSigma1 (x : Nat) : Nat := rotr 6 x ^^^ rotr 11 x ^^^ rotr 25 x

/-- SHA-256 σ0. -/
def smallSigma0 (x : Nat) : Nat := rotr 7 x ^^^ rotr 18 x ^^^ (x >>> 3)

/-- SHA-256 σ1. -/
def smallSigma1 (x : Nat) : Nat := rotr 17 x ^^^ rotr 19 x ^^^ (x >>> 10)

/-- The 64 SHA-256 round constants. -/
def K256 : List Nat :=
  [1116352408, 1899447441, 3049323471, 3921009573, 961987163, 1508970993,
   2453635748, 2870763221, 3624381080, 310598401, 607225278, 1426881987,
   1925078388, 2162078206, 2614888103, 3248222580, 3835390401, 4022224774,
   264347078, 604807628, 770255983, 1249150122, 1555081692, 1996064986,
   2554220882, 2821834349, 2952996808, 3210313671, 3336571891, 3584528711,
   113926993, 338241895, 666307205, 773529912, 1294757372, 1396182291,
   1695183700, 1986661051, 2177026350, 2456956037, 2730485921, 2820302411,
   3259730800, 3345764771, 3516065817, 3600352804, 4094571909, 275423344,
   430227734, 506948616, 659060556, 883997877, 958139571, 1322822218,
   1537002063, 1747873779, 1955562222, 2024104815, 2227730452, 2361852424,
   2428436474, 2756734187, 3204031479, 3329325298]

/-- SHA-256 working state: eight 32-bit words. -/
structure Hash8 where
  a : Nat
  b : Nat
  c : Nat
  d : Nat
  e : Nat
  f : Nat
  g : Nat
  h : Nat
  deriving DecidableEq, Repr

/-- The SHA-256 initial hash value. -/
def H0 : Hash8 :=
  ⟨1779033703, 3144134277, 1013904242, 2773480762,
   1359893119, 2600822924, 528734635, 1541459225⟩

/-- One SHA-256 compression round, fed a pair (round constant, schedule word). -/
def shaRound (s : Hash8) (kw : Nat × Nat) : Hash8 :=
  let t1 := (s.h + bigSigma1 s.e + ch s.e s.f s.g + kw.1 + kw.2) % M32
  let t2 := (bigSigma0 s.a + maj s.a s.b s.c) % M32
  ⟨(t1 + t2) % M32, s.a, s.b, s.c, (s.d + t1) % M32, s.e, s.f, s.g⟩

/-- Extend the message schedule: `acc` holds already-produced words newest
first; `n` further words remain to be produced. -/
def scheduleAux (acc : List Nat) : Nat → List Nat
  | 0 => acc
  | n + 1 =>
    let w := (smallSigma1 (acc.getD 1 0) + acc.getD 6 0 +
              smallSigma0 (acc.getD 14 0) + acc.getD 15 0) % M32
    scheduleAux (w :: acc) n

/-- The 64-word message schedule of a 16-word block. -/
def schedule (block : List Nat) : List Nat :=
  (scheduleAux block.reverse 48).reverse

/-- Compress one 16-word block into the running hash value. -/
def compress (hs : Hash8) (block : List Nat) : Hash8 :=
  let s := ((K256.zip (schedule block)).foldl shaRound hs)
  ⟨(hs.a + s.a) % M32, (hs.b + s.b) % M32, (hs.c + s.c) % M32,
   (hs.d + s.d) % M32, (hs.e + s.e) % M32, (hs.f + s.f) % M32,
   (hs.g + s.g) % M32, (hs.h + s.h) % M32⟩

/-- Big-endian byte rendering of `n` on `k` bytes. -/
def beBytes (k n : Nat) : List Nat :=
  (List.range k).map (fun i => (n >>> (8 * (k - 1 - i))) &&& 255)

/-- Big-endian word value of a byte list. -/
def toWord (bs : List Nat) : Nat := bs.foldl (fun acc b => acc * 256 + b) 0

/-- Split a list into chunks of `n` elements; `fuel` bounds the recursion. -/
def chunksAux (n : Nat) : Nat → List α → List (List α)
  | 0, _ => []
  | _, [] => []
  | fuel + 1, x :: xs => ((x :: xs).take n) :: chunksAux n fuel ((x :: xs).drop n)

/-- Split a list into chunks of `n` elements (last chunk may be shorter). -/
def chunks (n : Nat) (l : List α) : List (List α) := chunksAux n l.length l

/-- SHA-256 padding: append `0x80`, zeros, and the 64-bit bit length. -/
def padMessage (msg : List Nat) : List Nat :=
  msg ++ [128] ++ List.replicate ((119 - msg.length % 64) % 64) 0 ++
    beBytes 8 (msg.length * 8)

/-- SHA-256 digest (32 bytes) of a byte list. -/
def sha256 (msg : List Nat) : List Nat :=
  let words := (chunks 4 (padMessage msg)).map toWord
  let final := (chunks 16 words).foldl compress H0
  beBytes 4 final.a ++ beBytes 4 final.b ++ beBytes 4 final.c ++
  beBytes 4 final.d ++ beBytes 4 final.e ++ beBytes 4 final.f ++
  beBytes 4 final.g ++ beBytes 4 final.h

/-- HMAC-SHA256 (RFC 2104) of `msg` under `key`, both byte lists. -/
def hmacSha256 (key msg : List Nat) : List Nat :=
  let k0 := if 64 < key.length then sha256 key else key
  let kpad := k0 ++ List.replicate (64 - k0.length) 0
  let ipadKey := kpad.map (fun b => b ^^^ 54)
  let opadKey := kpad.map (fun b => b ^^^ 92)
  sha256 (opadKey ++ sha256 (ipadKey ++ msg))

/-! ## Hex encoding and UTF-8 -/

/-- The sixteen lowercase hexadecimal digits. -/
def hexDigits : List Char := "0123456789abcdef".toList

/-- Lowercase hex digit of a value below 16. -/
def hexDigit (n : Nat) : Char := hexDigits.getD n '0'

/-- Lowercase hex character rendering of a byte list. -/
def bytesToHexChars (bs : List Nat) : List Char :=
  bs.flatMap (fun b => [hexDigit (b / 16), hexDigit (b % 16)])

/-- Lowercase hex string of a byte list, as produced by `digest("hex")`. -/
def bytesToHex (bs : List Nat) : String := String.mk (bytesToHexChars bs)

/-- UTF-8 encoding of one character. -/
def utf8Char (c : Char) : List Nat :=
  let n := c.toNat
  if n < 128 then [n]
  else if n < 2048 then [192 ||| (n >>> 6), 128 ||| (n &&& 63)]
  else if n < 65536 then
    [224 ||| (n >>> 12), 128 ||| ((n >>> 6) &&& 63), 128 ||| (n &&& 63)]
  else
    [240 ||| (n >>> 18), 128 ||| ((n >>> 12) &&& 63),
     128 ||| ((n >>> 6) &&& 63), 128 ||| (n &&& 63)]

/-- UTF-8 encoding of a string. -/
def utf8 (s : String) : List Nat := s.data.flatMap utf8Char

/-! ## The signer (`src/auth.ts`) -/

/-- The authentication header triple returned by the signer
(interface `WiroAuthHeaders`). -/
structure WiroAuthHeaders where
  xApiKey : String
  xNonce : String
  xSignature : String
  deriving DecidableEq, Repr

/-- `generateAuthHeaders` from `src/auth.ts`. `nowMs` stands for the value
read from `Date.now()`, the only non-deterministic input; the source performs
no validation of the credentials. -/
def generateAuthHeaders (apiKey apiSecret : String) (nowMs : Nat) : WiroAuthHeaders :=
  let nonce := toString (nowMs / 1000)
  let message := apiSecret ++ nonce
  let signature := bytesToHex (hmacSha256 (utf8 apiKey) (utf8 message))
  ⟨apiKey, nonce, signature⟩

/-- The bundled (dist) variant of `generateAuthHeaders`, which additionally
rejects credentials shorter than 8 characters before computing anything. -/
def generateAuthHeadersDist (apiKey apiSecret : String) (nowMs : Nat) :
    Except String WiroAuthHeaders :=
  if apiKey = "" ∨ apiKey.length < 8 then
    .error "Invalid apiKey: must be at least 8 characters long"
  else if apiSecret = "" ∨ apiSecret.length < 8 then
    .error "Invalid apiSecret: must be at least 8 characters long"
  else
    .ok (generateAuthHeaders apiKey apiSecret nowMs)

/-- The signature formula exactly as the specification words it: the
lowercase hex encoding of HMAC-SHA256, keyed by `apiKey`, of the message
formed by concatenating `apiSecret` and the decimal rendering of the
nonce `n`, with no delimiter. -/
def specSignature (apiKey apiSecret : String) (n : Nat) : String :=
  bytesToHex (hmacSha256 (utf8 apiKey) (utf8 (apiSecret ++ toString n)))

/-! ### Validation of the hash model against standard test vectors -/

theorem sha256_empty_vector :
    bytesToHex (sha256 []) =
      "e3b0c44298fc1c149afbf4c8996fb92427ae41e4649b934ca495991b7852b855" := by
  decide

theorem sha256_abc_vector :
    bytesToHex (sha256 (utf8 "abc")) =
      "ba7816bf8f01cfea414140de5dae2223b00361a396177a9cb410ff61f20015ad" := by
  decide

theorem hmacSha256_rfc4231_vector :
    bytesToHex (hmacSha256 (utf8 "Jefe") (utf8 "what do ya want for nothing?")) =
      "5bdcc146bf60754e6a042426089575c75a003f089d2739839dec58b964ec3843" := by
  decide

/-! ## JavaScript values and JSON serialization

The `params` argument of `run` is a `Record<string, any>`; we model it as an
association list of scalar values or arrays of scalars (the shapes the SDK
and its examples exchange with the API), keeping JavaScript `null` and
`undefined` distinct because `run` treats them alike but `JSON.stringify`
does not. -/

/-- A scalar JavaScript value. -/
inductive JScalar where
  | snull
  | sundef
  | sstr (s : String)
  | sint (n : Int)
  | sbool (b : Bool)
  deriving DecidableEq, Repr

/-- A JavaScript parameter value: a scalar or an array of scalars. -/
inductive JVal where
  | scalar (v : JScalar)
  | arr (xs : List JScalar)
  deriving DecidableEq, Repr

/-- JavaScript `String(v)` on a scalar. -/
def jsStringScalar : JScalar → String
  | .snull => "null"
  | .sundef => "undefined"
  | .sstr s => s
  | .sint n => toString n
  | .sbool b => if b then "true" else "false"

/-- JSON escape of one character, as `JSON.stringify` performs it. -/
def jsonEscapeChar (c : Char) : List Char :=
  if c = '"' then ['\\', '"']
  else if c = '\\' then ['\\', '\\']
  else if c.toNat = 10 then ['\\', 'n']
  else if c.toNat = 9 then ['\\', 't']
  else if c.toNat = 13 then ['\\', 'r']
  else if c.toNat = 8 then ['\\', 'b']
  else if c.toNat = 12 then ['\\', 'f']
  else if c.toNat < 32 then
    ['\\', 'u', '0', '0', hexDigit (c.toNat / 16), hexDigit (c.toNat % 16)]
  else [c]

/-- JSON quoted-string rendering. -/
def jsonQuote (s : String) : String :=
  "\"" ++ String.mk (s.data.flatMap jsonEscapeChar) ++ "\""

/-- JSON rendering of a scalar in array position (`undefined` becomes
`null` there, a JavaScript quirk of `JSON.stringify`). -/
def jsonScalarInArray : JScalar → String
  | .snull => "null"
  | .sundef => "null"
  | .sstr s => jsonQuote s
  | .sint n => toString n
  | .sbool b => if b then "true" else "false"

/-- JSON rendering of a parameter value. -/
def jsonVal : JVal → String
  | .scalar v => jsonScalarInArray v
  | .arr xs => "[" ++ String.intercalate "," (xs.map jsonScalarInArray) ++ "]"

/-- Is this value JavaScript `undefined`? -/
def isUndef : JVal → Bool
  | .scalar .sundef => true
  | _ => false

/-- `JSON.stringify` of an object given as an association list in property
insertion order: entries whose value is `undefined` are omitted. -/
def jsonStringifyObj (entries : List (String × JVal)) : String :=
  "\x7b" ++
    String.intercalate ","
      (((entries.filter (fun e => !(isUndef e.2))).map
        (fun e => jsonQuote e.1 ++ ":" ++ jsonVal e.2))) ++
  "\x7d"

/-- An optional string property, as a parameter value (`none` is
JavaScript `undefined`). -/
def optToJVal : Option String → JVal
  | none => .scalar .sundef
  | some s => .scalar (.sstr s)

/-! ## The client (`src/client.ts`, bundled form in `dist`) -/

/-- Source of a file attachment: a filesystem path (opened with
`Bun.file`) or an in-memory blob, which carries a `name` property exactly
when it is a `File`. -/
inductive FileSource where
  | path (p : String)
  | blob (blobName : Option String)
  deriving DecidableEq, Repr

/-- `WiroFileParam` from `src/types/index.ts`. -/
structure WiroFileParam where
  name : String
  file : FileSource
  filename : Option String := none
  deriving DecidableEq, Repr

/-- One part of a multipart form body: a stringified field or a file part. -/
inductive FormPart where
  | field (name value : String)
  | filePart (name filename : String) (source : FileSource)
  deriving DecidableEq, Repr

/-- An HTTP request body: serialized JSON or a multipart form. -/
inductive RequestBody where
  | json (s : String)
  | multipart (parts : List FormPart)
  deriving DecidableEq, Repr

/-- An HTTP request as handed to `fetch`: URL, headers, body. -/
structure HttpRequest where
  url : String
  headers : List (String × String)
  body : RequestBody
  deriving DecidableEq, Repr

/-- The auth headers spread into a request's header object. -/
def authHeaderList (h : WiroAuthHeaders) : List (String × String) :=
  [("x-api-key", h.xApiKey), ("x-nonce", h.xNonce), ("x-signature", h.xSignature)]

/-- `WiroClientOptions` from `src/types/index.ts`. -/
structure WiroClientOptions where
  apiKey : String
  apiSecret : String
  baseUrl : Option String := none
  deriving DecidableEq, Repr

/-- A constructed client instance (its three private fields). -/
structure WiroClient where
  apiKey : String
  apiSecret : String
  baseUrl : String
  deriving DecidableEq, Repr

/-- `String.prototype.startsWith`, computed on character lists. -/
def strStartsWith (s pre : String) : Bool := pre.data.isPrefixOf s.data

/-- `baseUrl.replace(/\/$/, "")`: remove one trailing slash. -/
def stripTrailingSlash (s : String) : String :=
  match s.data.getLast? with
  | some '/' => String.mk s.data.dropLast
  | _ => s

/-- The `WiroClient` constructor. `none` for `baseUrl` means the option was
absent, so the default production URL applies. Thrown errors are modelled
as `Except.error` of the thrown message. -/
def mkWiroClient (options : WiroClientOptions) : Except String WiroClient :=
  let baseUrl := options.baseUrl.getD "https://api.wiro.ai/v1"
  if options.apiKey = "" then
    .error "WiroClient requires an apiKey"
  else if options.apiSecret = "" then
    .error "WiroClient requires an apiSecret"
  else if baseUrl ≠ "" ∧ strStartsWith baseUrl "http://" = false ∧
      strStartsWith baseUrl "https://" = false then
    .error "Invalid baseUrl: must start with http:// or https://"
  else
    .ok ⟨options.apiKey, options.apiSecret, stripTrailingSlash baseUrl⟩

/-- `String.prototype.split` on a character class, computed on character
lists (`"".split` gives `[""]`, a trailing separator yields a final `""`). -/
def splitChars (sep : Char → Bool) : List Char → List (List Char)
  | [] => [[]]
  | c :: cs =>
    let rest := splitChars sep cs
    if sep c then [] :: rest
    else
      match rest with
      | [] => [[c]]
      | r :: rs => (c :: r) :: rs

/-- Last segment of a path split on `/` or `\`, as
`fileParam.file.split(/[/\\]/)` followed by taking the last element. -/
def lastPathSegment (p : String) : String :=
  String.mk ((splitChars (fun c => c == '/' || c == '\\') p.data).getLastD [])

/-- Resolve the filename of a form file part, as `run` does: an explicit
non-empty `filename` wins; a path contributes its last segment (falling
back to the field name when that segment is empty); a blob contributes its
own `name` when it has a non-empty one, else `<name>.bin`. -/
def resolveFilename (fp : WiroFileParam) : String :=
  match fp.filename with
  | some fn =>
    if fn = "" then resolveDerivedFilename fp else fn
  | none => resolveDerivedFilename fp
where
  /-- The derived filename used when none was supplied. -/
  resolveDerivedFilename (fp : WiroFileParam) : String :=
    match fp.file with
    | .path p =>
      let seg := lastPathSegment p
      if seg = "" then fp.name else seg
    | .blob (some n) => if n = "" then fp.name ++ ".bin" else n
    | .blob none => fp.name ++ ".bin"

/-- Flatten one `params` entry into form fields, as the multipart branch of
`run` does: `null`/`undefined` entries are skipped, an array appends one
stringified field per element under the same name, any other value appends
a single stringified field. -/
def fieldsOfEntry (key : String) : JVal → List FormPart
  | .scalar .snull => []
  | .scalar .sundef => []
  | .scalar v => [.field key (jsStringScalar v)]
  | .arr xs => xs.map (fun x => FormPart.field key (jsStringScalar x))

/-- `WiroClient.run`, modelled up to the point where the request is handed
to `fetch`: the URL, headers and body it sends. `nowMs` is the wall clock
read while generating the auth headers. -/
def WiroClient.run (c : WiroClient) (owner model : String)
    (params : List (String × JVal)) (files : Option (List WiroFileParam))
    (nowMs : Nat) : HttpRequest :=
  let auth := generateAuthHeaders c.apiKey c.apiSecret nowMs
  let url := c.baseUrl ++ "/Run/" ++ owner ++ "/" ++ model
  match files with
  | some (f :: fs) =>
    let fields := params.flatMap (fun e => fieldsOfEntry e.1 e.2)
    let fileParts := (f :: fs).map
      (fun fp => FormPart.filePart fp.name (resolveFilename fp) fp.file)
    ⟨url, authHeaderList auth, .multipart (fields ++ fileParts)⟩
  | _ =>
    ⟨url, authHeaderList auth ++ [("Content-Type", "application/json")],
     .json (jsonStringifyObj params)⟩

/-! ## Task operations -/

/-- `TaskDetailRequest` / `KillTaskRequest` from `src/types/index.ts`:
both are `{ taskid?: string; tasktoken?: string }`. -/
structure TaskDetailRequest where
  taskid : Option String := none
  tasktoken : Option String := none
  deriving DecidableEq, Repr

/-- JavaScript falsiness of an optional string: absent or empty. -/
def falsyOpt : Option String → Bool
  | none => true
  | some s => s = ""

/-- One observable action of a client operation: generating the signed
envelope, or sending an HTTP request. -/
inductive ClientStep where
  | sign (h : WiroAuthHeaders)
  | send (r : HttpRequest)
  deriving DecidableEq, Repr

/-- The steps actually performed: none when the operation threw locally. -/
def stepsOf : Except String (List ClientStep) → List ClientStep
  | .error _ => []
  | .ok l => l

/-- How many network requests an operation issued. -/
def netCalls (r : Except String (List ClientStep)) : Nat :=
  (stepsOf r).countP (fun s => match s with | .send _ => true | _ => false)

/-- JSON body of a task-info request, `JSON.stringify(taskInfo)`. -/
def taskInfoJson (t : TaskDetailRequest) : String :=
  jsonStringifyObj [("taskid", optToJVal t.taskid), ("tasktoken", optToJVal t.tasktoken)]

/-- `WiroClient.getTaskDetail`, modelled as the sequence of steps up to the
network send. The precondition check precedes envelope generation. -/
def WiroClient.getTaskDetail (c : WiroClient) (taskInfo : TaskDetailRequest)
    (nowMs : Nat) : Except String (List ClientStep) :=
  if falsyOpt taskInfo.taskid && falsyOpt taskInfo.tasktoken then
    .error "getTaskDetail requires either a taskid or a tasktoken"
  else
    let auth := generateAuthHeaders c.apiKey c.apiSecret nowMs
    .ok [.sign auth,
         .send ⟨c.baseUrl ++ "/Task/Detail",
                authHeaderList auth ++ [("Content-Type", "application/json")],
                .json (taskInfoJson taskInfo)⟩]

/-- `WiroClient.killTask`; identical shape, posting to `/Task/Kill`. -/
def WiroClient.killTask (c : WiroClient) (taskInfo : TaskDetailRequest)
    (nowMs : Nat) : Except String (List ClientStep) :=
  if falsyOpt taskInfo.taskid && falsyOpt taskInfo.tasktoken then
    .error "killTask requires either a taskid or a tasktoken"
  else
    let auth := generateAuthHeaders c.apiKey c.apiSecret nowMs
    .ok [.sign auth,
         .send ⟨c.baseUrl ++ "/Task/Kill",
                authHeaderList auth ++ [("Content-Type", "application/json")],
                .json (taskInfoJson taskInfo)⟩]

/-- `WiroClient.cancelTask`: it performs no validation of `taskid` and
posts `JSON.stringify({ taskid })` to `/Task/Cancel`. `none` models a
caller passing `undefined` despite the TypeScript signature. -/
def WiroClient.cancelTask (c : WiroClient) (taskid : Option String)
    (nowMs : Nat) : Except String (List ClientStep) :=
  let auth := generateAuthHeaders c.apiKey c.apiSecret nowMs
  .ok [.sign auth,
       .send ⟨c.baseUrl ++ "/Task/Cancel",
              authHeaderList auth ++ [("Content-Type", "application/json")],
              .json (jsonStringifyObj [("taskid", optToJVal taskid)])⟩]

/-! ## The poller (`examples/shared/helpers.ts`, `waitForTaskCompletion`) -/

/-- The projection of the `Task` interface onto the fields the poller and
its scenarios read. -/
structure Task where
  id : String
  status : String
  debugerror : String
  deriving DecidableEq, Repr

/-- A `Task/Detail` response as the poller sees it: `tasklist` may be
absent (`none`) or empty. -/
structure TaskDetailResponse where
  tasklist : Option (List Task)
  deriving DecidableEq, Repr

/-- How one run of the poller ends. `cancelled` and `notFound` carry /
stand for the thrown `Error` (messages `"Task was cancelled"` and
`"Task not found in response"`); `timeout` records the seconds figure
interpolated into `"Task did not complete within _ seconds"`. -/
inductive PollResult where
  | completed (t : Task)
  | notFound
  | cancelled (msg : String)
  | timeout (timeoutSeconds : ℚ)
  deriving DecidableEq, Repr

/-- Observable outcome of a poll: final result, number of `getTaskDetail`
calls issued, number of inter-attempt waits performed. -/
structure PollOutcome where
  result : PollResult
  calls : Nat
  sleeps : Nat
  deriving DecidableEq, Repr

/-- The loop body of `waitForTaskCompletion`, with `fuel` iterations of the
`for` loop remaining and `attempt` the current attempt number. The task
source `stub` maps an attempt number to the `getTaskDetail` response, as in
the repository's own mock-based tests. -/
def waitAux (stub : Nat → TaskDetailResponse) (maxAttempts intervalMs : Nat) :
    Nat → Nat → PollOutcome
  | 0, _ => ⟨.timeout (((maxAttempts * intervalMs : Nat) : ℚ) / 1000), 0, 0⟩
  | fuel + 1, attempt =>
    match (stub attempt).tasklist with
    | none => ⟨.notFound, 1, 0⟩
    | some [] => ⟨.notFound, 1, 0⟩
    | some (task :: _) =>
      if task.status = "task_postprocess_end" then
        ⟨.completed task, 1, 0⟩
      else if task.status = "task_cancel" then
        ⟨.cancelled "Task was cancelled", 1, 0⟩
      else
        let rest := waitAux stub maxAttempts intervalMs fuel (attempt + 1)
        ⟨rest.result, rest.calls + 1,
         rest.sleeps + (if attempt < maxAttempts then 1 else 0)⟩

/-- `waitForTaskCompletion` over an injected task source: the `for` loop
runs attempts `1..maxAttempts` (source defaults: 60 attempts, 2000 ms). -/
def waitForTaskCompletion (stub : Nat → TaskDetailResponse)
    (maxAttempts intervalMs : Nat) : PollOutcome :=
  waitAux stub maxAttempts intervalMs maxAttempts 1

/-- Classification of one `getTaskDetail` response by the loop body:
`some r` when the iteration ends the poll with result `r`, `none` when the
poll continues to the next attempt. -/
def observe (resp : TaskDetailResponse) : Option PollResult :=
  match resp.tasklist with
  | none => some .notFound
  | some [] => some .notFound
  | some (t :: _) =>
    if t.status = "task_postprocess_end" then some (.completed t)
    else if t.status = "task_cancel" then some (.cancelled "Task was cancelled")
    else none

/-! ## Helper lemmas -/

/-- Every hex digit the encoder emits is one of the sixteen lowercase
hexadecimal characters. -/
theorem hexDigit_mem (n : Nat) : hexDigit n ∈ hexDigits := by
  by_cases h : n < hexDigits.length
  · rw [hexDigit, List.getD_eq_getElem _ _ h]
    exact List.getElem_mem h
  · rw [hexDigit, List.getD_eq_default _ _ (Nat.le_of_not_lt h)]
    decide

/-- Every character of a hex-encoded byte list is a lowercase hex digit. -/
theorem bytesToHex_chars_mem (bs : List Nat) :
    ∀ c ∈ (bytesToHex bs).toList, c ∈ hexDigits := by
  intro c hc
  have hmem : c ∈ bytesToHexChars bs := hc
  rw [bytesToHexChars, List.mem_flatMap] at hmem
  obtain ⟨b, -, hb⟩ := hmem
  simp only [List.mem_cons, List.not_mem_nil, or_false] at hb
  rcases hb with h | h
  · exact h ▸ hexDigit_mem _
  · exact h ▸ hexDigit_mem _

/-- C1: `generateAuthHeaders` is a pure function of `(apiKey, apiSecret)`
and the clock reading: the `x-nonce` header is the decimal rendering of
`floor(nowMs / 1000)`, the signature is the lowercase hex encoding of
HMAC-SHA256 keyed by `apiKey` over the concatenation of `apiSecret` and the
decimal nonce (no delimiter, exactly the spec formula `specSignature`), its
characters are all lowercase hex digits, and any two invocations with the
same `(apiKey, apiSecret, nonce)` triple yield the same headers. -/
theorem generateAuthHeaders_matches_spec (apiKey apiSecret : String) (nowMs : Nat) :
    generateAuthHeaders apiKey apiSecret nowMs =
      ⟨apiKey, toString (nowMs / 1000), specSignature apiKey apiSecret (nowMs / 1000)⟩ ∧
    (∀ c ∈ (generateAuthHeaders apiKey apiSecret nowMs).xSignature.toList, c ∈ hexDigits) ∧
    (∀ nowMs2, nowMs / 1000 = nowMs2 / 1000 →
      generateAuthHeaders apiKey apiSecret nowMs = generateAuthHeaders apiKey apiSecret nowMs2) := by
  refine ⟨rfl, bytesToHex_chars_mem _, fun nowMs2 h => ?_⟩
  simp only [generateAuthHeaders, h]

/-- C1 witness: the theorem applied at a concrete credential pair and two
clock readings that floor to the same nonce second. -/
theorem generateAuthHeaders_matches_spec_witness :
    generateAuthHeaders "mykey123" "mysecret1" 1734513807123 =
      generateAuthHeaders "mykey123" "mysecret1" 1734513807999 ∧
    '1' ∈ hexDigits :=
  ⟨(generateAuthHeaders_matches_spec "mykey123" "mysecret1" 1734513807123).2.2
      1734513807999 rfl,
   (generateAuthHeaders_matches_spec "mykey123" "mysecret1" 1734513807123).2.1
      '1' (by decide)⟩

/-- The dist signer's two disjunctive guards collapse to length checks,
since an empty string has length `0 < 8`. -/
theorem generateAuthHeadersDist_eq (k s : String) (nowMs : Nat) :
    generateAuthHeadersDist k s nowMs =
      if k.length < 8 then .error "Invalid apiKey: must be at least 8 characters long"
      else if s.length < 8 then .error "Invalid apiSecret: must be at least 8 characters long"
      else .ok (generateAuthHeaders k s nowMs) := by
  rw [generateAuthHeadersDist]
  by_cases hk : k.length < 8 <;> by_cases hs : s.length < 8
  · simp [hk, hs]
  · simp [hk, hs]
  · have hk0 : k ≠ "" := by intro he; exact hk (by rw [he]; decide)
    simp [hk, hs, hk0]
  · have hk0 : k ≠ "" := by intro he; exact hk (by rw [he]; decide)
    have hs0 : s ≠ "" := by intro he; exact hs (by rw [he]; decide)
    simp [hk, hs, hk0, hs0]

/-- C2 counterexample: the claim fails on the code in both directions.
The constructor accepts the 5-character (non-empty, shorter than 8)
`apiKey` `"short"`, so a too-short credential does not fail construction;
the exported `src/auth.ts` signer computes headers even for empty
credentials, so signing with empty credentials does not fail; and the
bundled dist signer rejects the non-empty pair `("short", "secret12")`,
so signing does not succeed for every non-empty pair either. -/
theorem credential_claim_counterexample :
    ("short".length < 8 ∧
      (mkWiroClient ⟨"short", "secret12", none⟩).isOk = true) ∧
    (generateAuthHeaders "" "" 0).xNonce = "0" ∧
    (generateAuthHeadersDist "short" "secret12" 0).isOk = false := by
  refine ⟨⟨by decide, by decide⟩, rfl, by decide⟩

/-- C2 (amended): with the default `baseUrl`, construction succeeds exactly
when both credentials are non-empty (no minimum-length check exists there);
the bundled dist signer succeeds exactly when both credentials have at
least 8 characters, and when it succeeds it returns precisely the
`src/auth.ts` headers; the `src/auth.ts` signer itself performs no
validation and never fails (it is total, returning the header triple for
every input). All of these checks happen before any network access: none
of the involved functions produces a request. -/
theorem credential_validation (k s : String) (nowMs : Nat) :
    ((mkWiroClient ⟨k, s, none⟩).isOk = true ↔ (k ≠ "" ∧ s ≠ "")) ∧
    ((generateAuthHeadersDist k s nowMs).isOk = true ↔
      (8 ≤ k.length ∧ 8 ≤ s.length)) ∧
    (generateAuthHeadersDist k s nowMs = .ok (generateAuthHeaders k s nowMs) ∨
      ∃ msg, generateAuthHeadersDist k s nowMs = .error msg) ∧
    (generateAuthHeaders k s nowMs).xApiKey = k := by
  refine ⟨?_, ?_, ?_, rfl⟩
  · have hbase : stripTrailingSlash "https://api.wiro.ai/v1" = "https://api.wiro.ai/v1" := by
      decide
    have hstart : strStartsWith "https://api.wiro.ai/v1" "https://" = true := by decide
    by_cases hk : k = "" <;> by_cases hs : s = "" <;>
      simp [mkWiroClient, hk, hs, hbase, hstart, Except.isOk, Except.toBool]
  · rw [generateAuthHeadersDist_eq]
    by_cases hk : k.length < 8 <;> by_cases hs : s.length < 8 <;>
      simp [hk, hs, Except.isOk, Except.toBool]
    all_goals omega
  · rw [generateAuthHeadersDist_eq]
    by_cases hk : k.length < 8
    · exact Or.inr ⟨"Invalid apiKey: must be at least 8 characters long", by simp [hk]⟩
    · by_cases hs : s.length < 8
      · exact Or.inr ⟨"Invalid apiSecret: must be at least 8 characters long",
          by simp [hk, hs]⟩
      · exact Or.inl (by simp [hk, hs])

/-- C2 witness: the amended theorem applied at a concrete too-short pair
and a concrete valid pair. -/
theorem credential_validation_witness :
    ((mkWiroClient ⟨"", "secret12", none⟩).isOk = true ↔
      (("" : String) ≠ "" ∧ ("secret12" : String) ≠ "")) ∧
    ((generateAuthHeadersDist "mykey123" "mysecret1" 0).isOk = true ↔
      (8 ≤ "mykey123".length ∧ 8 ≤ "mysecret1".length)) :=
  ⟨(credential_validation "" "secret12" 0).1,
   (credential_validation "mykey123" "mysecret1" 0).2.1⟩

/-- C3: `run` with an absent or empty `files` argument sends the JSON
serialization of `params` as the body together with a
`Content-Type: application/json` header; with a non-empty `files` array it
never sets a `Content-Type` header and instead builds a multipart form
holding, first, for every `params` entry one field per scalar value and one
repeated field per list element (stringified), with `null` and `undefined`
entries skipped, and then one file part per file. -/
theorem run_encoding (c : WiroClient) (owner model : String)
    (params : List (String × JVal)) (nowMs : Nat) :
    ((c.run owner model params none nowMs).body = .json (jsonStringifyObj params) ∧
      ("Content-Type", "application/json") ∈ (c.run owner model params none nowMs).headers) ∧
    ((c.run owner model params (some []) nowMs).body = .json (jsonStringifyObj params) ∧
      ("Content-Type", "application/json") ∈
        (c.run owner model params (some []) nowMs).headers) ∧
    (∀ f fs,
      (∀ v, ("Content-Type", v) ∉ (c.run owner model params (some (f :: fs)) nowMs).headers) ∧
      (c.run owner model params (some (f :: fs)) nowMs).body =
        .multipart
          ((params.flatMap fun e => fieldsOfEntry e.1 e.2) ++
            ((f :: fs).map fun fp => FormPart.filePart fp.name (resolveFilename fp) fp.file)) ∧
      ((f :: fs).map fun fp => FormPart.filePart fp.name (resolveFilename fp) fp.file).length =
        fs.length + 1) ∧
    (∀ key, fieldsOfEntry key (.scalar .snull) = [] ∧
      fieldsOfEntry key (.scalar .sundef) = []) ∧
    (∀ key str, fieldsOfEntry key (.scalar (.sstr str)) = [.field key str]) ∧
    (∀ key n, fieldsOfEntry key (.scalar (.sint n)) = [.field key (toString n)]) ∧
    (∀ key b, fieldsOfEntry key (.scalar (.sbool b)) =
      [.field key (if b then "true" else "false")]) ∧
    (∀ key xs, fieldsOfEntry key (.arr xs) =
      xs.map fun x => FormPart.field key (jsStringScalar x)) := by
  refine ⟨⟨rfl, ?_⟩, ⟨rfl, ?_⟩, fun f fs => ⟨fun v => ?_, rfl, by simp⟩,
    fun key => ⟨rfl, rfl⟩, fun key str => rfl, fun key n => rfl, fun key b => rfl,
    fun key xs => rfl⟩
  · simp [WiroClient.run, authHeaderList]
  · simp [WiroClient.run, authHeaderList]
  · simp [WiroClient.run, authHeaderList]

/-- C3 witness: the theorem applied at concrete inputs; the JSON branch
carries the serialized parameters and its header, and the multipart branch
of a one-file call contains no `Content-Type` header. -/
theorem run_encoding_witness :
    (WiroClient.run ⟨"k", "s", "https://api.wiro.ai/v1"⟩ "wiro" "m"
        [("a", .scalar (.sint 1))] none 0).body =
      .json (jsonStringifyObj [("a", .scalar (.sint 1))]) ∧
    ("Content-Type", "application/json") ∉
      (WiroClient.run ⟨"k", "s", "https://api.wiro.ai/v1"⟩ "wiro" "m"
        [("a", .scalar (.sint 1))] (some [⟨"f", .blob none, none⟩]) 0).headers :=
  ⟨(run_encoding ⟨"k", "s", "https://api.wiro.ai/v1"⟩ "wiro" "m"
      [("a", .scalar (.sint 1))] 0).1.1,
   ((run_encoding ⟨"k", "s", "https://api.wiro.ai/v1"⟩ "wiro" "m"
      [("a", .scalar (.sint 1))] 0).2.2.1 ⟨"f", .blob none, none⟩ []).1
      "application/json"⟩

/-- C4: `getTaskDetail` and `killTask` called with neither `taskid` nor
`tasktoken` throw `InvalidArgument` locally: the result is the thrown
message, no signed envelope is generated, and zero network requests are
issued. -/
theorem getTaskDetail_killTask_precondition (c : WiroClient)
    (info : TaskDetailRequest) (nowMs : Nat)
    (h1 : info.taskid = none) (h2 : info.tasktoken = none) :
    c.getTaskDetail info nowMs =
      .error "getTaskDetail requires either a taskid or a tasktoken" ∧
    c.killTask info nowMs =
      .error "killTask requires either a taskid or a tasktoken" ∧
    stepsOf (c.getTaskDetail info nowMs) = [] ∧
    stepsOf (c.killTask info nowMs) = [] ∧
    netCalls (c.getTaskDetail info nowMs) = 0 ∧
    netCalls (c.killTask info nowMs) = 0 := by
  obtain ⟨tid, ttok⟩ := info
  cases h1
  cases h2
  exact ⟨rfl, rfl, rfl, rfl, rfl, rfl⟩

/-- C4 witness: the theorem applied to a concrete client and the empty
task-info object. -/
theorem getTaskDetail_killTask_precondition_witness :
    stepsOf (WiroClient.getTaskDetail ⟨"key", "secret", "https://api.wiro.ai/v1"⟩
      ⟨none, none⟩ 0) = [] ∧
    stepsOf (WiroClient.killTask ⟨"key", "secret", "https://api.wiro.ai/v1"⟩
      ⟨none, none⟩ 0) = [] :=
  ⟨(getTaskDetail_killTask_precondition ⟨"key", "secret", "https://api.wiro.ai/v1"⟩
      ⟨none, none⟩ 0 rfl rfl).2.2.1,
   (getTaskDetail_killTask_precondition ⟨"key", "secret", "https://api.wiro.ai/v1"⟩
      ⟨none, none⟩ 0 rfl rfl).2.2.2.1⟩

/-- C10: `cancelTask` performs no local validation of `taskid`: for every
value, including the empty string (`some ""`) and `undefined` (`none`), it
generates a fresh signed envelope and issues exactly one POST to
`/Task/Cancel`, never a local failure. -/
theorem cancelTask_no_validation (c : WiroClient) (taskid : Option String) (nowMs : Nat) :
    (c.cancelTask taskid nowMs).isOk = true ∧
    netCalls (c.cancelTask taskid nowMs) = 1 ∧
    stepsOf (c.cancelTask taskid nowMs) =
      [.sign (generateAuthHeaders c.apiKey c.apiSecret nowMs),
       .send ⟨c.baseUrl ++ "/Task/Cancel",
              authHeaderList (generateAuthHeaders c.apiKey c.apiSecret nowMs) ++
                [("Content-Type", "application/json")],
              .json (jsonStringifyObj [("taskid", optToJVal taskid)])⟩] :=
  ⟨rfl, rfl, rfl⟩

/-- A response is classified "continue polling" exactly when it carries a
non-empty task list whose head status is neither terminal. -/
theorem observe_eq_none_iff (resp : TaskDetailResponse) :
    observe resp = none ↔
      ∃ t rest, resp.tasklist = some (t :: rest) ∧
        t.status ≠ "task_postprocess_end" ∧ t.status ≠ "task_cancel" := by
  obtain ⟨tl⟩ := resp
  match tl with
  | none => simp [observe]
  | some [] => simp [observe]
  | some (t :: rest) =>
    by_cases h1 : t.status = "task_postprocess_end" <;>
      by_cases h2 : t.status = "task_cancel" <;>
      simp [observe, h1, h2]

/-- One unfolding of the poll loop body. -/
theorem waitAux_succ (stub : Nat → TaskDetailResponse)
    (maxAttempts intervalMs fuel attempt : Nat) :
    waitAux stub maxAttempts intervalMs (fuel + 1) attempt =
      match (stub attempt).tasklist with
      | none => ⟨.notFound, 1, 0⟩
      | some [] => ⟨.notFound, 1, 0⟩
      | some (task :: _) =>
        if task.status = "task_postprocess_end" then ⟨.completed task, 1, 0⟩
        else if task.status = "task_cancel" then ⟨.cancelled "Task was cancelled", 1, 0⟩
        else
          let rest := waitAux stub maxAttempts intervalMs fuel (attempt + 1)
          ⟨rest.result, rest.calls + 1,
           rest.sleeps + (if attempt < maxAttempts then 1 else 0)⟩ := rfl

/-- Master lemma for the poll loop: if every attempt in `[attempt, j)` is
classified "continue" and attempt `j` is the first decisive one, with
outcome `r`, then the loop ends with `r` after `j + 1 - attempt` calls
and `j - attempt` waits, provided `j ≤ maxAttempts` and enough loop
iterations remain. -/
theorem waitAux_first_decisive (stub : Nat → TaskDetailResponse)
    (maxAttempts intervalMs j : Nat) (r : PollResult) (hjm : j ≤ maxAttempts) :
    ∀ fuel attempt, attempt ≤ j → j < attempt + fuel →
      (∀ i, attempt ≤ i → i < j → observe (stub i) = none) →
      observe (stub j) = some r →
      waitAux stub maxAttempts intervalMs fuel attempt = ⟨r, j + 1 - attempt, j - attempt⟩ := by
  intro fuel
  induction fuel with
  | zero => intro attempt h1 h2 _ _; omega
  | succ n ih =>
    intro attempt h1 h2 hpre hobs
    have e1 : attempt + 1 - attempt = 1 := by omega
    have e2 : attempt - attempt = 0 := by omega
    rw [waitAux_succ]
    by_cases heq : attempt = j
    · subst heq
      simp only [observe] at hobs
      rw [e1, e2]
      match htl : (stub attempt).tasklist with
      | none =>
        simp only [htl] at hobs
        cases hobs
        simp [htl]
      | some [] =>
        simp only [htl] at hobs
        cases hobs
        simp [htl]
      | some (t :: rest) =>
        simp only [htl] at hobs
        by_cases hs1 : t.status = "task_postprocess_end"
        · rw [if_pos hs1] at hobs
          cases hobs
          simp [htl, hs1]
        · rw [if_neg hs1] at hobs
          by_cases hs2 : t.status = "task_cancel"
          · rw [if_pos hs2] at hobs
            cases hobs
            simp [htl, hs1, hs2]
          · rw [if_neg hs2] at hobs
            cases hobs
    · have hlt : attempt < j := Nat.lt_of_le_of_ne h1 heq
      obtain ⟨t, rest, htl, hs1, hs2⟩ :=
        (observe_eq_none_iff _).mp (hpre attempt le_rfl hlt)
      have hrec := ih (attempt + 1) hlt (by omega)
        (fun i hi1 hi2 => hpre i (by omega) hi2) hobs
      have hcond : attempt < maxAttempts := by omega
      rw [htl]
      simp only [if_neg hs1, if_neg hs2, hrec, if_pos hcond]
      try congr 1
      all_goals omega

/-- Timeout lemma for the poll loop: if every remaining attempt is
classified "continue", the loop exhausts its budget, issuing one call per
remaining attempt and waiting after each but the last. -/
theorem waitAux_all_nonterminal (stub : Nat → TaskDetailResponse)
    (maxAttempts intervalMs : Nat) :
    ∀ fuel attempt, attempt + fuel = maxAttempts + 1 →
      (∀ i, attempt ≤ i → i ≤ maxAttempts → observe (stub i) = none) →
      waitAux stub maxAttempts intervalMs fuel attempt =
        ⟨.timeout (((maxAttempts * intervalMs : Nat) : ℚ) / 1000), fuel, fuel - 1⟩ := by
  intro fuel
  induction fuel with
  | zero => intro attempt _ _; rw [waitAux]
  | succ n ih =>
    intro attempt hsum hpre
    obtain ⟨t, rest, htl, hs1, hs2⟩ :=
      (observe_eq_none_iff _).mp (hpre attempt le_rfl (by omega))
    have hrec := ih (attempt + 1) (by omega) (fun i hi1 hi2 => hpre i (by omega) hi2)
    rw [waitAux_succ, htl]
    match n, hsum with
    | 0, hsum =>
      have hc : ¬ attempt < maxAttempts := by omega
      simp only [if_neg hs1, if_neg hs2, hrec, if_neg hc]
    | m + 1, hsum =>
      have hc : attempt < maxAttempts := by omega
      simp only [if_neg hs1, if_neg hs2, hrec, if_pos hc]
      congr 1

/-- C5: if the first terminal-success status (`task_postprocess_end`)
appears on attempt `k ≤ maxAttempts`, with all earlier attempts observing a
non-empty task list in a non-terminal status, then the poll returns the
attempt-`k` task after exactly `k` `getTaskDetail` calls and makes no
further calls after the terminal observation. -/
theorem poll_returns_first_success (stub : Nat → TaskDetailResponse)
    (maxAttempts intervalMs k : Nat) (t : Task) (rest : List Task)
    (hk1 : 1 ≤ k) (hk2 : k ≤ maxAttempts)
    (hterm : (stub k).tasklist = some (t :: rest))
    (hstat : t.status = "task_postprocess_end")
    (hpre : ∀ i, 1 ≤ i → i < k → ∃ ti resti,
      (stub i).tasklist = some (ti :: resti) ∧
      ti.status ≠ "task_postprocess_end" ∧ ti.status ≠ "task_cancel") :
    (waitForTaskCompletion stub maxAttempts intervalMs).result = .completed t ∧
    (waitForTaskCompletion stub maxAttempts intervalMs).calls = k := by
  have hobs : observe (stub k) = some (.completed t) := by
    simp [observe, hterm, hstat]
  have h := waitAux_first_decisive stub maxAttempts intervalMs k (.completed t) hk2
    maxAttempts 1 hk1 (by omega)
    (fun i hi1 hi2 => (observe_eq_none_iff _).mpr (hpre i hi1 hi2)) hobs
  rw [waitForTaskCompletion, h]
  exact ⟨rfl, show k + 1 - 1 = k by omega⟩

/-- The spec scenario stub for C5: `task_start` on attempts 1 and 2,
`task_postprocess_end` from attempt 3 on. -/
def stubSuccess3 : Nat → TaskDetailResponse := fun i =>
  if i < 3 then ⟨some [⟨"42", "task_start", ""⟩]⟩
  else ⟨some [⟨"42", "task_postprocess_end", ""⟩]⟩

/-- C5 witness: the theorem applied to the spec scenario stub — the poll
returns the attempt-3 task after exactly 3 invocations. -/
theorem poll_returns_first_success_witness :
    (waitForTaskCompletion stubSuccess3 10 2000).result =
      .completed ⟨"42", "task_postprocess_end", ""⟩ ∧
    (waitForTaskCompletion stubSuccess3 10 2000).calls = 3 :=
  poll_returns_first_success stubSuccess3 10 2000 3
    ⟨"42", "task_postprocess_end", ""⟩ [] (by decide) (by decide) (by decide) rfl
    (fun i h1 h2 => ⟨⟨"42", "task_start", ""⟩, [], by interval_cases i <;> exact ⟨rfl, by decide, by decide⟩⟩)

/-- The stub used against C6: every attempt reports `task_cancel` on a
task whose `debugerror` field is the non-empty string `"boom"`. -/
def stubCancelBoom : Nat → TaskDetailResponse := fun _ =>
  ⟨some [⟨"9", "task_cancel", "boom"⟩]⟩

/-- C6 counterexample: on a cancelled task whose `debugerror` is `"boom"`,
the poll does fail after exactly one invocation, but the thrown failure is
the fixed message `"Task was cancelled"`, which does not contain the
task's debug-error text — the claim that the failure carries the
debug-error field is false on this input. -/
theorem poll_cancelled_counterexample :
    (waitForTaskCompletion stubCancelBoom 5 2000).result =
      .cancelled "Task was cancelled" ∧
    (waitForTaskCompletion stubCancelBoom 5 2000).calls = 1 ∧
    (stubCancelBoom 1).tasklist = some [⟨"9", "task_cancel", "boom"⟩] ∧
    ¬ List.IsInfix "boom".toList "Task was cancelled".toList := by
  refine ⟨by decide, by decide, rfl, ?_⟩
  decide

/-- C6 (amended): when the first terminal observation is `task_cancel`
(on attempt `j ≤ maxAttempts`, all earlier attempts non-terminal), the poll
fails immediately after exactly `j` invocations — in the spec scenario,
exactly 1 — with the fixed message `"Task was cancelled"`; the task's
debug-error field is not included in the failure. -/
theorem poll_cancelled (stub : Nat → TaskDetailResponse)
    (maxAttempts intervalMs j : Nat) (t : Task) (rest : List Task)
    (hj1 : 1 ≤ j) (hj2 : j ≤ maxAttempts)
    (hterm : (stub j).tasklist = some (t :: rest))
    (hstat : t.status = "task_cancel")
    (hpre : ∀ i, 1 ≤ i → i < j → ∃ ti resti,
      (stub i).tasklist = some (ti :: resti) ∧
      ti.status ≠ "task_postprocess_end" ∧ ti.status ≠ "task_cancel") :
    (waitForTaskCompletion stub maxAttempts intervalMs).result =
      .cancelled "Task was cancelled" ∧
    (waitForTaskCompletion stub maxAttempts intervalMs).calls = j := by
  have hns : t.status ≠ "task_postprocess_end" := by rw [hstat]; decide
  have hobs : observe (stub j) = some (.cancelled "Task was cancelled") := by
    simp [observe, hterm, hstat, hns]
  have h := waitAux_first_decisive stub maxAttempts intervalMs j
    (.cancelled "Task was cancelled") hj2 maxAttempts 1 hj1 (by omega)
    (fun i hi1 hi2 => (observe_eq_none_iff _).mpr (hpre i hi1 hi2)) hobs
  rw [waitForTaskCompletion, h]
  exact ⟨rfl, show j + 1 - 1 = j by omega⟩

/-- C6 witness: the amended theorem applied to the always-cancelled stub —
failure after exactly 1 invocation with the fixed message. -/
theorem poll_cancelled_witness :
    (waitForTaskCompletion stubCancelBoom 10 2000).result =
      .cancelled "Task was cancelled" ∧
    (waitForTaskCompletion stubCancelBoom 10 2000).calls = 1 :=
  poll_cancelled stubCancelBoom 10 2000 1 ⟨"9", "task_cancel", "boom"⟩ []
    (by decide) (by decide) rfl rfl (fun i h1 h2 => absurd h2 (by omega))

/-- C7: if every observed status is non-terminal, the poll issues exactly
`maxAttempts` calls, waits after every attempt but the last
(`maxAttempts - 1` waits), and fails with a timeout whose reported figure
is `maxAttempts × intervalMs / 1000` seconds. -/
theorem poll_times_out (stub : Nat → TaskDetailResponse)
    (maxAttempts intervalMs : Nat)
    (hpre : ∀ i, 1 ≤ i → i ≤ maxAttempts → ∃ ti resti,
      (stub i).tasklist = some (ti :: resti) ∧
      ti.status ≠ "task_postprocess_end" ∧ ti.status ≠ "task_cancel") :
    waitForTaskCompletion stub maxAttempts intervalMs =
      ⟨.timeout (((maxAttempts * intervalMs : Nat) : ℚ) / 1000),
       maxAttempts, maxAttempts - 1⟩ := by
  rw [waitForTaskCompletion]
  exact waitAux_all_nonterminal stub maxAttempts intervalMs maxAttempts 1 (by omega)
    (fun i hi1 hi2 => (observe_eq_none_iff _).mpr (hpre i hi1 hi2))

/-- The spec scenario stub for C7 and C9: every attempt reports
`task_queue`. -/
def stubAlwaysQueue : Nat → TaskDetailResponse := fun _ =>
  ⟨some [⟨"7", "task_queue", ""⟩]⟩

/-- C7 witness: with `maxAttempts = 3` and `intervalMs = 2000`, the poll
fails after exactly 3 invocations and 2 waits, reporting
`3 × 2000 / 1000 = 6` seconds. -/
theorem poll_times_out_witness :
    waitForTaskCompletion stubAlwaysQueue 3 2000 = ⟨.timeout 6, 3, 2⟩ := by
  have h := poll_times_out stubAlwaysQueue 3 2000
    (fun i h1 h2 => ⟨⟨"7", "task_queue", ""⟩, [], rfl, by decide, by decide⟩)
  rw [h]
  norm_num

/-- C8: when `getTaskDetail` reports an empty (or absent) task list on the
first attempt, the poll fails immediately with the task-not-found failure
after exactly one invocation, regardless of how many attempts remain. -/
theorem poll_not_found (stub : Nat → TaskDetailResponse)
    (maxAttempts intervalMs : Nat) (hmax : 1 ≤ maxAttempts)
    (h1 : (stub 1).tasklist = none ∨ (stub 1).tasklist = some []) :
    (waitForTaskCompletion stub maxAttempts intervalMs).result = .notFound ∧
    (waitForTaskCompletion stub maxAttempts intervalMs).calls = 1 := by
  have hobs : observe (stub 1) = some .notFound := by
    rcases h1 with h | h <;> simp [observe, h]
  have h := waitAux_first_decisive stub maxAttempts intervalMs 1 .notFound hmax
    maxAttempts 1 le_rfl (by omega) (fun i hi1 hi2 => absurd hi2 (by omega)) hobs
  rw [waitForTaskCompletion, h]
  exact ⟨rfl, rfl⟩

/-- The spec scenario stub for C8: every attempt returns an empty
`tasklist`. -/
def stubEmptyList : Nat → TaskDetailResponse := fun _ => ⟨some []⟩

/-- C8 witness: the theorem applied to the empty-`tasklist` stub with a
large remaining budget. -/
theorem poll_not_found_witness :
    (waitForTaskCompletion stubEmptyList 60 2000).result = .notFound ∧
    (waitForTaskCompletion stubEmptyList 60 2000).calls = 1 :=
  poll_not_found stubEmptyList 60 2000 (by decide) (Or.inr rfl)

/-- C9: every status other than `task_postprocess_end` and `task_cancel` —
in particular any status string the client does not recognize — is treated
as non-terminal: the attempt neither returns nor fails, and polling
continues with the next attempt (here: a success on attempt 2 is still
reached, after exactly 2 calls). -/
theorem poll_unknown_status_continues (s : String)
    (hs1 : s ≠ "task_postprocess_end") (hs2 : s ≠ "task_cancel")
    (stub : Nat → TaskDetailResponse) (t : Task) (rest : List Task)
    (h1 : (stub 1).tasklist = some (t :: rest)) (ht : t.status = s)
    (t2 : Task) (rest2 : List Task) (h2 : (stub 2).tasklist = some (t2 :: rest2))
    (ht2 : t2.status = "task_postprocess_end")
    (maxAttempts intervalMs : Nat) (hmax : 2 ≤ maxAttempts) :
    (waitForTaskCompletion stub maxAttempts intervalMs).result = .completed t2 ∧
    (waitForTaskCompletion stub maxAttempts intervalMs).calls = 2 :=
  poll_returns_first_success stub maxAttempts intervalMs 2 t2 rest2
    (by omega) hmax h2 ht2
    (fun i hi1 hi2 => by
      have : i = 1 := by omega
      subst this
      exact ⟨t, rest, h1, ht ▸ hs1, ht ▸ hs2⟩)

/-- A stub for C9: an unrecognized status string on attempt 1, success on
attempt 2. -/
def stubUnknownThenSuccess : Nat → TaskDetailResponse := fun i =>
  if i = 1 then ⟨some [⟨"5", "task_brand_new_phase", ""⟩]⟩
  else ⟨some [⟨"5", "task_postprocess_end", ""⟩]⟩

/-- C9 witness: the theorem applied to a stub whose first status is the
unrecognized `"task_brand_new_phase"` — polling continues and completes. -/
theorem poll_unknown_status_continues_witness :
    (waitForTaskCompletion stubUnknownThenSuccess 10 2000).result =
      .completed ⟨"5", "task_postprocess_end", ""⟩ ∧
    (waitForTaskCompletion stubUnknownThenSuccess 10 2000).calls = 2 :=
  poll_unknown_status_continues "task_brand_new_phase" (by decide) (by decide)
    stubUnknownThenSuccess ⟨"5", "task_brand_new_phase", ""⟩ [] rfl rfl
    ⟨"5", "task_postprocess_end", ""⟩ [] rfl rfl 10 2000 (by decide)

end Wiro
